import Mathlib

/-!
# Verification of the `ng-simple-state` base store

Shallow embedding of `src/projects/ng-simple-state/src/lib/ng-simple-state-base-store.ts`
(class `NgSimpleStateBaseStore<S extends object | Array<any>>`).

Modelling choices:
* A JavaScript value is either a primitive, a record object, or an array.
  Objects and arrays carry an allocation tag `ref : Nat` modelling their heap
  reference: `Object.assign` with a fresh target (`{}` or `[]`) produces a value
  with a fresh tag.  JavaScript `===` on objects/arrays compares tags
  (`strictEq`); structural (deep) equality ignores tags (`structEq`).
* Record fields hold primitive values; the store's shallow merge
  (`Object.assign({}, currState, newState)`, line 125) never inspects the
  field values, so this loses no generality for the merge semantics.
* Fallible JavaScript code (the unguarded call-stack introspection in
  `devToolSend`, lines 144-151) is modelled in `Except JsError`.
* The collaborator calls (`devTool.send`, `localStorage.setItem`) and the
  publication `state$.next` are recorded as an `Event` trace, in call order.
-/

/-- JavaScript primitive values (the payload of state fields / array slots). -/
inductive JsPrim where
  | num (n : Int)
  | str (s : String)
  | bool (b : Bool)
  | null
  | undef
deriving DecidableEq, Repr

/-- A JavaScript value: a primitive, a record object, or an array.
`ref` is the allocation tag standing for the heap reference. -/
inductive JsVal where
  | prim (p : JsPrim)
  | obj (ref : Nat) (fields : List (String × JsPrim))
  | arr (ref : Nat) (elems : List JsPrim)
deriving DecidableEq, Repr

namespace JsVal

/-- `Array.isArray` (used at line 49 of the base store). -/
def isArrV : JsVal → Bool
  | .arr _ _ => true
  | _ => false

/-- The value is a (non-array) record object. -/
def isObjV : JsVal → Bool
  | .obj _ _ => true
  | _ => false

/-- The heap reference of a value (`none` for primitives, which have no
reference identity in JavaScript). -/
def refOf : JsVal → Option Nat
  | .prim _ => none
  | .obj r _ => some r
  | .arr r _ => some r

/-- JavaScript truthiness (`if (!this.firstState)`, line 43). -/
def truthyV : JsVal → Bool
  | .obj _ _ => true
  | .arr _ _ => true
  | .prim (.num n) => decide (n ≠ 0)
  | .prim (.str s) => decide (s ≠ "")
  | .prim (.bool b) => b
  | .prim .null => false
  | .prim .undef => false

end JsVal

/-- JavaScript property write `o[k] = v` on a field list: overwrite in place
if the key exists, else append (insertion-order semantics of JS objects). -/
def setField : List (String × JsPrim) → String → JsPrim → List (String × JsPrim)
  | [], k, v => [(k, v)]
  | (k0, v0) :: rest, k, v =>
    if k0 = k then (k0, v) :: rest else (k0, v0) :: setField rest k v

/-- `Object.assign(base, upd)` restricted to the own enumerable properties of
`upd`: copy them onto `base` one by one, in order. -/
def assignFields (base upd : List (String × JsPrim)) : List (String × JsPrim) :=
  upd.foldl (fun acc kv => setField acc kv.1 kv.2) base

/-- First-occurrence association lookup (JS property read on a well-formed
object, whose keys are unique). -/
def lookupField : List (String × JsPrim) → String → Option JsPrim
  | [], _ => none
  | (k0, v0) :: rest, k => if k0 = k then some v0 else lookupField rest k

/-- Keys of a field list. -/
def keysOf (f : List (String × JsPrim)) : List String := f.map Prod.fst

/-- A well-formed JS object has no duplicate keys. -/
def nodupKeys (f : List (String × JsPrim)) : Prop := (keysOf f).Nodup

instance (f : List (String × JsPrim)) : Decidable (nodupKeys f) := by
  unfold nodupKeys; infer_instance

/-- The own enumerable properties of a value, as `Object.assign` enumerates
them: an object's fields; an array's index-keyed slots; none for primitives
(string character spreading is not modelled — the store's state is typed
`object | Array`, never a bare string). -/
def fieldsOf : JsVal → List (String × JsPrim)
  | .obj _ f => f
  | .arr _ e => ((List.range e.length).zip e).map (fun iv => (toString iv.1, iv.2))
  | .prim _ => []

/-- The index-keyed slots of a value copied by `Object.assign([], v)`:
an array's elements; nothing for a record or primitive. -/
def elemsOf : JsVal → List JsPrim
  | .arr _ e => e
  | _ => []

/-- JS property read `v[k]` (on the own enumerable properties). -/
def getField (v : JsVal) (k : String) : Option JsPrim :=
  lookupField (fieldsOf v) k

/-- JavaScript `===`: value equality on primitives, reference equality on
objects and arrays.  This is the default comparator of RxJS
`distinctUntilChanged()` (line 100). -/
def strictEq : JsVal → JsVal → Bool
  | .prim p, .prim q => decide (p = q)
  | .obj r _, .obj s _ => decide (r = s)
  | .arr r _, .arr s _ => decide (r = s)
  | _, _ => false

/-- Structural (deep) equality: compares contents, ignoring references. -/
def structEq : JsVal → JsVal → Bool
  | .prim p, .prim q => decide (p = q)
  | .obj _ f, .obj _ g => decide (f = g)
  | .arr _ e, .arr _ d => decide (e = d)
  | _, _ => false

/-- `Object.assign(isArray ? [] : {}, v)` with a fresh allocation tag `r`:
the structural copy made at construction (line 50) and by the default
selector (line 96). -/
def copyAssign (isAr : Bool) (r : Nat) (v : JsVal) : JsVal :=
  if isAr then .arr r (elemsOf v) else .obj r (assignFields [] (fieldsOf v))

/-! ## The store core (`NgSimpleStateBaseStore`) -/

/-- The private state of one store instance: the `isArray` classification,
the construction-time `firstState`, the subject's current value, and the
next fresh allocation tag. -/
structure Store where
  isArray : Bool
  firstState : JsVal
  current : JsVal
  nextRef : Nat
deriving DecidableEq, Repr

/-- Lines 49-50 of the constructor: classify the shape of `firstState` with
`Array.isArray`, then open the subject with
`Object.assign(this.isArray ? [] : {}, this.firstState)` — a structural copy
carrying the fresh tag `r`. -/
def mkStore (firstState : JsVal) (r : Nat) : Store :=
  let isAr := firstState.isArrV
  { isArray := isAr
    firstState := firstState
    current := copyAssign isAr r firstState
    nextRef := r + 1 }

/-- `getCurrentState()` (lines 109-111): `return this.state$.getValue()` —
the subject's held value itself, no copy. -/
def getCurrentState (st : Store) : JsVal :=
  st.current

/-- The merge step of `setState` (lines 121-126): if the store is
array-shaped, `state = Object.assign([], newState)`; otherwise
`state = Object.assign({}, currState, newState)`.  Either branch allocates
one fresh value, tagged `st.nextRef`. -/
def mergeState (st : Store) (newState : JsVal) : JsVal :=
  if st.isArray then
    .arr st.nextRef (elemsOf newState)
  else
    .obj st.nextRef
      (assignFields (assignFields [] (fieldsOf (getCurrentState st))) (fieldsOf newState))

/-- The state transition of `setState(stateFn, ...)` (lines 118-132),
side channels elided: read the current state, run the reducer, merge,
hold the merged value in the subject. -/
def setStateVal (st : Store) (stateFn : JsVal → JsVal) : Store :=
  let currState := getCurrentState st
  let newState := stateFn currState
  let state := mergeState st newState
  { st with current := state, nextRef := st.nextRef + 1 }

/-- `resetState()` (lines 64-66): `setState(() => this.firstState)`. -/
def resetState (st : Store) : Store :=
  setStateVal st (fun _ => st.firstState)

/-- `restartState()` (lines 71-73): `setState(() => this.initialState())`;
the abstract `initialState()` is the parameter `initSt`. -/
def restartState (initSt : JsVal) (st : Store) : Store :=
  setStateVal st (fun _ => initSt)

/-- One write operation on the public surface of the store. -/
inductive WriteOp where
  | setOp (stateFn : JsVal → JsVal)
  | resetOp
  | restartOp

/-- Apply one write operation (with `initialState() = initSt`). -/
def applyOp (initSt : JsVal) (st : Store) : WriteOp → Store
  | .setOp f => setStateVal st f
  | .resetOp => resetState st
  | .restartOp => restartState initSt st

/-- Run a finite sequence of writes. -/
def runOps (initSt : JsVal) (st : Store) : List WriteOp → Store
  | [] => st
  | op :: ops => runOps initSt (applyOp initSt st op) ops

/-! ## The selector pipeline (`selectState`, lines 94-103) -/

/-- Run a selector over the stream of subject values.  A selector may
allocate (the default one copies the state), so it threads the fresh-tag
counter. -/
def selectorRun (sel : JsVal → Nat → JsVal × Nat) : List JsVal → Nat → List JsVal
  | [], _ => []
  | v :: vs, r =>
    let p := sel v r
    p.1 :: selectorRun sel vs p.2

/-- The dropping loop of `distinctUntilChanged`: `last` is the last value
delivered to this subscriber; a new value equal to it (under `eq`) is
dropped, a differing one is delivered and becomes the new `last`. -/
def distinctAux (eq : JsVal → JsVal → Bool) (last : JsVal) : List JsVal → List JsVal
  | [] => []
  | y :: ys => if eq last y then distinctAux eq last ys else y :: distinctAux eq y ys

/-- `distinctUntilChanged` over a whole stream: the first value is always
delivered. -/
def distinctList (eq : JsVal → JsVal → Bool) : List JsVal → List JsVal
  | [] => []
  | x :: xs => x :: distinctAux eq x xs

/-- The values delivered to one subscriber of
`state$.pipe(map(state => selectFn(state)), distinctUntilChanged(), ...)`
when the subject goes through `states`, with comparator `eq`.
The source's comparator is RxJS's default, i.e. `strictEq` (`===`). -/
def deliveredSeq (eq : JsVal → JsVal → Bool) (sel : JsVal → Nat → JsVal × Nat)
    (states : List JsVal) (r : Nat) : List JsVal :=
  distinctList eq (selectorRun sel states r)

/-- The default selector (line 96):
`Object.assign(this.isArray ? [] : {}, tmpState)` — a fresh structural copy
of the full state on every application. -/
def defaultSelector (isAr : Bool) : JsVal → Nat → JsVal × Nat :=
  fun v r => (copyAssign isAr r v, r + 1)

/-! ## The effectful layer: configuration, collaborators, exceptions -/

/-- The resolved per-instance configuration (constructor lines 36-38). -/
structure Config where
  localStorageIsEnabled : Bool
  devToolIsEnabled : Bool
  storeName : String
deriving DecidableEq, Repr

/-- The host environment: the `stack` string of `new Error()` (absent in
engines that do not populate it), and whether the Redux devtools extension
is connected (`NgSimpleStateDevTool.isActiveDevtool`). -/
structure Env where
  stack : Option (List Char)
  devToolActive : Bool
deriving DecidableEq, Repr

/-- A thrown JavaScript exception.  The unguarded introspection chain of
`devToolSend` can only throw `TypeError` (method call on `undefined`). -/
inductive JsError where
  | typeError
deriving DecidableEq, Repr

/-- One observable side-channel call or publication, in program order. -/
inductive Event where
  /-- `this.devTool.send(storeName, actionName, newState)` (line 152). -/
  | devToolSendEv (state : Option JsVal) (action : Option (List Char))
  /-- `this.localStorage.setItem(this.storeName, state)` (line 129). -/
  | persistEv (key : String) (state : JsVal)
  /-- `this.state$.next(state)` (line 131). -/
  | publishEv (state : JsVal)
deriving DecidableEq, Repr

/-- `String.prototype.split(c)`: always at least one piece; a trailing
separator yields a trailing empty piece. -/
def splitOnChar (c : Char) : List Char → List (List Char)
  | [] => [[]]
  | x :: xs =>
    let r := splitOnChar c xs
    if x = c then [] :: r
    else
      match r with
      | [] => [[x]]
      | h :: t => (x :: h) :: t

/-- JavaScript whitespace for `trim` (the forms that occur in stack traces). -/
def isSpaceJs (c : Char) : Bool :=
  c = ' ' || c = '\t' || c = '\n' || c = '\r'

/-- `String.prototype.trim()`. -/
def trimChars (l : List Char) : List Char :=
  (((l.dropWhile isSpaceJs).reverse).dropWhile isSpaceJs).reverse

/-- The action-name introspection of `devToolSend` (lines 146-150):
`new Error().stack.split('\n')[3].trim().split(' ')[1].split('.')[1]`.
Each step faithfully models where JavaScript throws: `.split` on an absent
`stack` throws; `.trim()` on a missing 4th line throws; `.split('.')` on a
missing 2nd word throws; a missing 2nd dot-component merely yields
`undefined` (it is only passed on, never called). -/
def introspect (stack : Option (List Char)) : Except JsError (Option (List Char)) :=
  match stack with
  | none => .error .typeError
  | some s =>
    match (splitOnChar '\n' s).get? 3 with
    | none => .error .typeError
    | some line =>
      match (splitOnChar ' ' (trimChars line)).get? 1 with
      | none => .error .typeError
      | some w => .ok ((splitOnChar '.' w).get? 1)

/-- JavaScript truthiness of the `actionName` argument (line 144,
`if (!actionName)`): truthy iff present and non-empty. -/
def goodAction : Option (List Char) → Bool
  | some s => !s.isEmpty
  | none => false

/-- `devToolSend(newState, actionName)` (lines 140-153): no-op when the dev
tool is disabled; otherwise, a falsy action name is replaced by the (fallible)
introspected label, and the triple is forwarded to the dev-tool collaborator,
whose return value reports whether the devtools extension is active. -/
def devToolSend (cfg : Config) (env : Env) (newState : Option JsVal)
    (actionName : Option (List Char)) : Except JsError (Bool × List Event) :=
  if cfg.devToolIsEnabled = false then .ok (false, [])
  else
    match (if goodAction actionName then Except.ok actionName else introspect env.stack) with
    | .error e => .error e
    | .ok lbl => .ok (env.devToolActive, [Event.devToolSendEv newState lbl])

/-- `setState(stateFn, actionName)` (lines 118-132) with its side effects:
read the current state, run the reducer, merge; then — in this order —
send to the dev tool, persist if enabled, publish to the subject.  An
exception thrown by the introspection aborts the call before persistence
and publication. -/
def setStateM (cfg : Config) (env : Env) (st : Store) (stateFn : JsVal → JsVal)
    (actionName : Option (List Char)) : Except JsError (Store × List Event) :=
  let st2 := setStateVal st stateFn
  let state := st2.current
  match devToolSend cfg env (some state) actionName with
  | .error e => .error e
  | .ok r =>
    .ok (st2,
      r.2 ++ (if cfg.localStorageIsEnabled then [Event.persistEv cfg.storeName state] else [])
          ++ [Event.publishEv state])

/-- The constructor's choice of `firstState` (lines 40-45): when persistence
is enabled, try `localStorage.getItem(storeName)` (the parameter `stored`,
`none` standing for `null`); if that is falsy, fall back to
`initialState()`. -/
def chooseFirstState (lsEnabled : Bool) (stored : Option JsVal) (initSt : JsVal) : JsVal :=
  let fs0 : Option JsVal := if lsEnabled then stored else none
  match fs0 with
  | some v => if v.truthyV then v else initSt
  | none => initSt

/-- The label `'initialState'` of the constructor's dev-tool notification
(line 47). -/
def initialStateLabel : List Char :=
  ['i', 'n', 'i', 't', 'i', 'a', 'l', 'S', 't', 'a', 't', 'e']

/-- The constructor (lines 40-51), after config resolution: choose
`firstState`, send it to the dev tool labelled `'initialState'`, classify
the shape and open the subject with a structural copy. -/
def constructStore (cfg : Config) (env : Env) (stored : Option JsVal) (initSt : JsVal)
    (r : Nat) : Except JsError (Store × List Event) :=
  let firstState := chooseFirstState cfg.localStorageIsEnabled stored initSt
  match devToolSend cfg env (some firstState) (some initialStateLabel) with
  | .error e => .error e
  | .ok res => .ok (mkStore firstState r, res.2)

/-- One public `setState` call: the reducer and the optional explicit
action label. -/
structure SetCall where
  stateFn : JsVal → JsVal
  actionName : Option (List Char)

/-- Run a sequence of `setState` calls, accumulating the event trace;
a thrown exception aborts the run. -/
def runCalls (cfg : Config) (env : Env) (st : Store) :
    List SetCall → Except JsError (Store × List Event)
  | [] => .ok (st, [])
  | c :: cs =>
    match setStateM cfg env st c.stateFn c.actionName with
    | .error e => .error e
    | .ok r =>
      match runCalls cfg env r.1 cs with
      | .error e => .error e
      | .ok r2 => .ok (r2.1, r.2 ++ r2.2)

/-- Construct a store and run a sequence of `setState` calls. -/
def runStore (cfg : Config) (env : Env) (stored : Option JsVal) (initSt : JsVal)
    (r : Nat) (calls : List SetCall) : Except JsError (Store × List Event) :=
  match constructStore cfg env stored initSt r with
  | .error e => .error e
  | .ok r0 =>
    match runCalls cfg env r0.1 calls with
    | .error e => .error e
    | .ok r1 => .ok (r1.1, r0.2 ++ r1.2)

/-- The published values in an event trace. -/
def publishes (evs : List Event) : List JsVal :=
  evs.filterMap fun e =>
    match e with
    | .publishEv v => some v
    | _ => none

/-- The sequence of values the subject holds over a whole run: its opening
value followed by every published value (`none` when the run threw). -/
def runTrace (cfg : Config) (env : Env) (stored : Option JsVal) (initSt : JsVal)
    (r : Nat) (calls : List SetCall) : Option (List JsVal) :=
  match constructStore cfg env stored initSt r with
  | .error _ => none
  | .ok r0 =>
    match runCalls cfg env r0.1 calls with
    | .error _ => none
    | .ok r1 => some (r0.1.current :: publishes r1.2)

/-- The store reached by a sequence of `setState` calls, side channels
elided. -/
def pureFold (st : Store) : List SetCall → Store
  | [] => st
  | c :: cs => pureFold (setStateVal st c.stateFn) cs

/-- The subject values published by a sequence of `setState` calls, side
channels elided. -/
def pubsOf (st : Store) : List SetCall → List JsVal
  | [] => []
  | c :: cs => (setStateVal st c.stateFn).current :: pubsOf (setStateVal st c.stateFn) cs

/-- Whether an `Except` computation returned normally. -/
def okB {α : Type} : Except JsError α → Bool
  | .ok _ => true
  | .error _ => false

/-! ## Configuration resolution (constructor lines 32-38, `storeConfig`) -/

/-- A JavaScript value sitting in a configuration field: a boolean, a
string, or anything else (`undefined`, `null`, numbers, objects, …) — the
constructor only ever asks `typeof x === 'boolean'` / `'string'`. -/
inductive CVal where
  | bool (b : Bool)
  | str (s : String)
  | other
deriving DecidableEq, Repr

/-- A raw `NgSimpleStateStoreConfig` object: each field is either an own
property holding a `CVal`, or absent (`none`). -/
structure RawConfig where
  enableLocalStorage : Option CVal := none
  enableDevTool : Option CVal := none
  storeName : Option CVal := none
deriving DecidableEq, Repr

/-- The empty config object `{}`. -/
def emptyRawConfig : RawConfig := {}

/-- The spread merge `{...globalConfig, ...storeConfig}` (line 34): a field
present on the per-store config overrides the global one. -/
def mergeConfig (g s : RawConfig) : RawConfig :=
  { enableLocalStorage := s.enableLocalStorage.or g.enableLocalStorage
    enableDevTool := s.enableDevTool.or g.enableDevTool
    storeName := s.storeName.or g.storeName }

/-- `typeof x === 'boolean' ? x : false` (lines 36-37). -/
def coerceBool : Option CVal → Bool
  | some (.bool b) => b
  | _ => false

/-- `typeof x === 'string' ? x : this.constructor.name` (line 38). -/
def coerceName (v : Option CVal) (ctorName : String) : String :=
  match v with
  | some (.str s) => s
  | _ => ctorName

/-- Whether an optional config field holds a boolean. -/
def isBoolOpt : Option CVal → Bool
  | some (.bool _) => true
  | _ => false

/-- Whether an optional config field holds a string. -/
def isStrOpt : Option CVal → Bool
  | some (.str _) => true
  | _ => false

/-- Config resolution (lines 32-38): `this.storeConfig() || {}` replaces a
null per-store config by `{}`, spread-merges it over the process-wide
config, then coerces each field. -/
def resolveConfig (globalConfig : RawConfig) (storeCfg : Option RawConfig)
    (ctorName : String) : Config :=
  let sc := storeCfg.getD emptyRawConfig
  let merged := mergeConfig globalConfig sc
  { localStorageIsEnabled := coerceBool merged.enableLocalStorage
    devToolIsEnabled := coerceBool merged.enableDevTool
    storeName := coerceName merged.storeName ctorName }

/-- The base class's `storeConfig()` (lines 79-81): `return null`. -/
def storeConfig : Option RawConfig := none

/-! ## Spec-side definitions (for refinement claims) -/

/-- Modelled from the spec's merge law for records: the field-wise value of
`\x7b...previous, ...partialUpd\x7d` — a field present in the partial
overwrites, an absent field is retained from the previous state. -/
def specMergeField (previous partialUpd : JsVal) (k : String) : Option JsPrim :=
  (getField partialUpd k).or (getField previous k)

/-! ## Lemmas about field assignment -/

theorem lookup_setField (base : List (String × JsPrim)) (k k' : String) (v : JsPrim) :
    lookupField (setField base k' v) k = if k' = k then some v else lookupField base k := by
  induction base with
  | nil => simp [setField, lookupField]
  | cons kv rest ih =>
    obtain ⟨k0, v0⟩ := kv
    by_cases h0 : k0 = k'
    · subst h0
      by_cases hk : k0 = k <;> simp [setField, lookupField, hk]
    · by_cases hk : k0 = k
      · subst hk
        have : ¬ k' = k0 := fun h => h0 h.symm
        simp [setField, lookupField, h0, this]
      · simp [setField, lookupField, h0, hk, ih]

theorem lookup_ne_none_of_mem (l : List (String × JsPrim)) (k : String)
    (h : k ∈ keysOf l) : lookupField l k ≠ none := by
  induction l with
  | nil => cases h
  | cons kv rest ih =>
    obtain ⟨k0, v0⟩ := kv
    by_cases h0 : k0 = k
    · simp [lookupField, h0]
    · rw [show keysOf ((k0, v0) :: rest) = k0 :: keysOf rest from rfl,
          List.mem_cons] at h
      have hr : k ∈ keysOf rest := by
        cases h with
        | inl he => exact absurd he.symm h0
        | inr hm => exact hm
      simp [lookupField, h0, ih hr]

theorem lookup_none_of_not_mem (l : List (String × JsPrim)) (k : String)
    (h : k ∉ keysOf l) : lookupField l k = none := by
  induction l with
  | nil => rfl
  | cons kv rest ih =>
    obtain ⟨k0, v0⟩ := kv
    rw [show keysOf ((k0, v0) :: rest) = k0 :: keysOf rest from rfl, List.mem_cons] at h
    push_neg at h
    have h0 : ¬ k0 = k := fun he => h.1 he.symm
    simp [lookupField, h0, ih h.2]

theorem lookup_assignFields (upd : List (String × JsPrim)) :
    ∀ (base : List (String × JsPrim)) (k : String), nodupKeys upd →
      lookupField (assignFields base upd) k
        = (lookupField upd k).or (lookupField base k) := by
  induction upd with
  | nil => intro base k _; simp [assignFields, lookupField]
  | cons kv rest ih =>
    intro base k h
    obtain ⟨k0, v0⟩ := kv
    rw [nodupKeys, keysOf] at h
    simp only [List.map_cons, List.nodup_cons] at h
    have hstep : assignFields base ((k0, v0) :: rest) = assignFields (setField base k0 v0) rest := rfl
    rw [hstep, ih (setField base k0 v0) k h.2, lookup_setField]
    by_cases hk : k0 = k
    · subst hk
      have hrest : lookupField rest k0 = none :=
        lookup_none_of_not_mem rest k0 (by simpa [keysOf] using h.1)
      simp [lookupField, hrest]
    · simp [lookupField, hk]

/-- The record branch of the merge step, field-wise: a field of the reducer's
return value wins, an absent field falls back to the current state. -/
theorem mergeState_record_lookup (st : Store) (v : JsVal) (hsh : st.isArray = false)
    (hc : nodupKeys (fieldsOf (getCurrentState st))) (hv : nodupKeys (fieldsOf v))
    (k : String) :
    lookupField (fieldsOf (mergeState st v)) k
      = (lookupField (fieldsOf v) k).or (lookupField (fieldsOf (getCurrentState st)) k) := by
  have h1 : mergeState st v
      = .obj st.nextRef
          (assignFields (assignFields [] (fieldsOf (getCurrentState st))) (fieldsOf v)) := by
    simp [mergeState, hsh]
  rw [h1]
  show lookupField (assignFields (assignFields [] (fieldsOf (getCurrentState st)))
    (fieldsOf v)) k = _
  rw [lookup_assignFields (fieldsOf v) _ k hv,
      lookup_assignFields (fieldsOf (getCurrentState st)) [] k hc]
  simp [lookupField]

/-! ## C1: record-shaped `setState` shallow-merges the partial over the
current state -/

/-- C1.  For a record-shaped store, `setState` with a reducer returning the
partial record `p` yields a current state field-wise equal to
`\x7b...previous, ...partial\x7d`: fields present in the partial overwrite,
absent fields are retained from the previous state (`specMergeField`). -/
theorem setState_record_merge (st : Store) (stateFn : JsVal → JsVal) (pr : Nat)
    (p : List (String × JsPrim))
    (hsh : st.isArray = false)
    (hf : stateFn (getCurrentState st) = JsVal.obj pr p)
    (hc : nodupKeys (fieldsOf (getCurrentState st)))
    (hp : nodupKeys p) (k : String) :
    getField (setStateVal st stateFn).current k
      = specMergeField (getCurrentState st) (JsVal.obj pr p) k := by
  have h1 : (setStateVal st stateFn).current = mergeState st (JsVal.obj pr p) := by
    simp [setStateVal, hf]
  rw [specMergeField, getField, getField, getField, h1,
      mergeState_record_lookup st (JsVal.obj pr p) hsh hc hp k]

/-- Witness for C1 on a concrete store: previous state `{a: 0, b: 1}`,
partial `{b: 5, c: 7}`; field `b` is overwritten, `a` retained, `c` added. -/
theorem setState_record_merge_witness :
    (getField (setStateVal (mkStore (JsVal.obj 0 [("a", JsPrim.num 0), ("b", JsPrim.num 1)]) 1)
        (fun _ => JsVal.obj 7 [("b", JsPrim.num 5), ("c", JsPrim.num 7)])).current "a"
      = specMergeField
          (getCurrentState (mkStore (JsVal.obj 0 [("a", JsPrim.num 0), ("b", JsPrim.num 1)]) 1))
          (JsVal.obj 7 [("b", JsPrim.num 5), ("c", JsPrim.num 7)]) "a") ∧
    (getField (setStateVal (mkStore (JsVal.obj 0 [("a", JsPrim.num 0), ("b", JsPrim.num 1)]) 1)
        (fun _ => JsVal.obj 7 [("b", JsPrim.num 5), ("c", JsPrim.num 7)])).current "b"
      = specMergeField
          (getCurrentState (mkStore (JsVal.obj 0 [("a", JsPrim.num 0), ("b", JsPrim.num 1)]) 1))
          (JsVal.obj 7 [("b", JsPrim.num 5), ("c", JsPrim.num 7)]) "b") ∧
    (getField (setStateVal (mkStore (JsVal.obj 0 [("a", JsPrim.num 0), ("b", JsPrim.num 1)]) 1)
        (fun _ => JsVal.obj 7 [("b", JsPrim.num 5), ("c", JsPrim.num 7)])).current "c"
      = specMergeField
          (getCurrentState (mkStore (JsVal.obj 0 [("a", JsPrim.num 0), ("b", JsPrim.num 1)]) 1))
          (JsVal.obj 7 [("b", JsPrim.num 5), ("c", JsPrim.num 7)]) "c") :=
  ⟨setState_record_merge _ _ 7 [("b", JsPrim.num 5), ("c", JsPrim.num 7)]
      (by decide) (by decide) (by decide) (by decide) "a",
   setState_record_merge _ _ 7 [("b", JsPrim.num 5), ("c", JsPrim.num 7)]
      (by decide) (by decide) (by decide) (by decide) "b",
   setState_record_merge _ _ 7 [("b", JsPrim.num 5), ("c", JsPrim.num 7)]
      (by decide) (by decide) (by decide) (by decide) "c"⟩

/-! ## C2: array-shaped `setState` replaces the array wholesale -/

/-- C2.  For an array-shaped store, `setState` with a reducer returning the
array `next` yields a current state that is exactly the array `next`
(structurally equal, full replace — no merge with the previous elements). -/
theorem setState_array_replace (st : Store) (stateFn : JsVal → JsVal) (ar : Nat)
    (next : List JsPrim)
    (hsh : st.isArray = true)
    (hf : stateFn (getCurrentState st) = JsVal.arr ar next) :
    (setStateVal st stateFn).current = JsVal.arr st.nextRef next ∧
    structEq (setStateVal st stateFn).current (JsVal.arr ar next) = true := by
  have h1 : (setStateVal st stateFn).current = JsVal.arr st.nextRef next := by
    simp [setStateVal, hf, mergeState, hsh, elemsOf]
  exact ⟨h1, by simp [h1, structEq]⟩

/-- Witness for C2: initial array `[1, 2, 3]`, reducer returns `[9]`; the
snapshot becomes `[9]`, not `[1, 2, 3, 9]`. -/
theorem setState_array_replace_witness :
    (setStateVal (mkStore (JsVal.arr 0 [JsPrim.num 1, JsPrim.num 2, JsPrim.num 3]) 1)
        (fun _ => JsVal.arr 77 [JsPrim.num 9])).current
      = JsVal.arr (mkStore (JsVal.arr 0 [JsPrim.num 1, JsPrim.num 2, JsPrim.num 3]) 1).nextRef
          [JsPrim.num 9] ∧
    structEq (setStateVal (mkStore (JsVal.arr 0 [JsPrim.num 1, JsPrim.num 2, JsPrim.num 3]) 1)
        (fun _ => JsVal.arr 77 [JsPrim.num 9])).current
      (JsVal.arr 77 [JsPrim.num 9]) = true :=
  setState_array_replace _ _ 77 [JsPrim.num 9] (by decide) (by decide)

/-! ## C3: selector distinctness -/

theorem chain_distinctAux (eq : JsVal → JsVal → Bool) (l : List JsVal) :
    ∀ last : JsVal,
      List.Chain' (fun a b => eq a b = false) (last :: distinctAux eq last l) := by
  induction l with
  | nil =>
    intro last
    exact List.chain'_singleton last
  | cons y ys ih =>
    intro last
    by_cases h : eq last y = true
    · simpa [distinctAux, h] using ih last
    · have hf : eq last y = false := by
        cases hxy : eq last y
        · rfl
        · exact absurd hxy h
      rw [show distinctAux eq last (y :: ys)
            = y :: distinctAux eq y ys by simp [distinctAux, hf]]
      exact List.chain'_cons.mpr ⟨hf, ih y⟩

theorem chain_distinctList (eq : JsVal → JsVal → Bool) (l : List JsVal) :
    List.Chain' (fun a b => eq a b = false) (distinctList eq l) := by
  cases l with
  | nil => exact List.chain'_nil
  | cons x xs => exact chain_distinctAux eq xs x

/-- Counterexample to C3.  The comparator of `distinctUntilChanged()` is
reference equality, not deep equality: a record store holding `{a: 0}`
receives `setState(() => ({}))`; the merged state is structurally unchanged
but is a fresh object, the default selector copies it into yet another fresh
object, so the subscriber receives two consecutive deliveries that are
structurally (deep) equal — which the claim says can never happen. -/
theorem selectState_deep_distinct_cex :
    deliveredSeq strictEq (defaultSelector false)
        [(mkStore (JsVal.obj 0 [("a", JsPrim.num 0)]) 1).current,
         (setStateVal (mkStore (JsVal.obj 0 [("a", JsPrim.num 0)]) 1)
            (fun _ => JsVal.obj 99 [])).current] 10
      = [JsVal.obj 10 [("a", JsPrim.num 0)], JsVal.obj 11 [("a", JsPrim.num 0)]] ∧
    structEq (JsVal.obj 10 [("a", JsPrim.num 0)]) (JsVal.obj 11 [("a", JsPrim.num 0)]) = true := by
  decide

/-- C3, amended.  The comparison `distinctUntilChanged()` performs is
JavaScript `===` (reference equality on objects): two consecutive values
delivered to one subscriber are never `===`-equal, and a value `===`-equal
to the last delivered one is dropped — but structurally equal values with
distinct references are delivered. -/
theorem selectState_ref_distinct (sel : JsVal → Nat → JsVal × Nat)
    (states : List JsVal) (r : Nat) :
    List.Chain' (fun a b => strictEq a b = false)
      (deliveredSeq strictEq sel states r) ∧
    (∀ last y ys, strictEq last y = true →
      distinctAux strictEq last (y :: ys) = distinctAux strictEq last ys) :=
  ⟨chain_distinctList strictEq (selectorRun sel states r),
   fun _ _ _ h => by simp [distinctAux, h]⟩

/-- Witness for C3 (amended), on the concrete two-state stream of the
counterexample: the `===`-filtered deliveries form a `===`-distinct chain,
and a projection `===`-equal to the last delivered value is dropped. -/
theorem selectState_ref_distinct_witness :
    List.Chain' (fun a b => strictEq a b = false)
      (deliveredSeq strictEq (defaultSelector false)
        [(mkStore (JsVal.obj 0 [("a", JsPrim.num 0)]) 1).current,
         (setStateVal (mkStore (JsVal.obj 0 [("a", JsPrim.num 0)]) 1)
            (fun _ => JsVal.obj 99 [])).current] 10) ∧
    distinctAux strictEq (JsVal.obj 4 [])
        (JsVal.obj 4 [] :: [JsVal.obj 5 []])
      = distinctAux strictEq (JsVal.obj 4 []) [JsVal.obj 5 []] :=
  ⟨(selectState_ref_distinct (defaultSelector false)
      [(mkStore (JsVal.obj 0 [("a", JsPrim.num 0)]) 1).current,
       (setStateVal (mkStore (JsVal.obj 0 [("a", JsPrim.num 0)]) 1)
          (fun _ => JsVal.obj 99 [])).current] 10).1,
   (selectState_ref_distinct (defaultSelector false) [] 0).2
      (JsVal.obj 4 []) (JsVal.obj 4 []) [JsVal.obj 5 []] (by decide)⟩

/-! ## C4: reset idempotence -/

/-- Counterexample to C4.  `resetState()` is `setState(() => firstState)`,
so for a record store it shallow-merges `firstState` over the current state
(line 125) instead of restoring it exactly: starting from `firstState
= {a: 0}`, after `setState(() => ({b: 1}))` the reset state still carries
the extra field `b`, so it is not the value captured at construction. -/
theorem resetState_first_cex :
    structEq
      (resetState (setStateVal (mkStore (JsVal.obj 0 [("a", JsPrim.num 0)]) 1)
        (fun _ => JsVal.obj 50 [("b", JsPrim.num 1)]))).current
      (mkStore (JsVal.obj 0 [("a", JsPrim.num 0)]) 1).firstState = false ∧
    getField
      (resetState (setStateVal (mkStore (JsVal.obj 0 [("a", JsPrim.num 0)]) 1)
        (fun _ => JsVal.obj 50 [("b", JsPrim.num 1)]))).current "b"
      = some (JsPrim.num 1) ∧
    getField (mkStore (JsVal.obj 0 [("a", JsPrim.num 0)]) 1).firstState "b" = none := by
  decide

/-- C4, amended.  `resetState()` restores `firstState` by the `setState`
merge: for an array-shaped store the elements become exactly `firstState`'s;
for a record-shaped store every field of `firstState` is restored while
fields of the current state absent from `firstState` are retained, so the
result is field-wise equal to `firstState` exactly when the current state
has no field outside `firstState`'s; a second `resetState()` then changes
nothing field-wise. -/
theorem resetState_amended (st : Store)
    (hfw : nodupKeys (fieldsOf st.firstState))
    (hcw : nodupKeys (fieldsOf (getCurrentState st))) :
    (st.isArray = true → elemsOf (resetState st).current = elemsOf st.firstState) ∧
    (st.isArray = false →
      ∀ k, getField (resetState st).current k
        = (getField st.firstState k).or (getField (getCurrentState st) k)) ∧
    (st.isArray = false →
      keysOf (fieldsOf (getCurrentState st)) ⊆ keysOf (fieldsOf st.firstState) →
      ∀ k, getField (resetState st).current k = getField st.firstState k) ∧
    (st.isArray = false → nodupKeys (fieldsOf (resetState st).current) →
      ∀ k, getField (resetState (resetState st)).current k
        = getField (resetState st).current k) := by
  have hor : st.isArray = false →
      ∀ k, getField (resetState st).current k
        = (getField st.firstState k).or (getField (getCurrentState st) k) := by
    intro hsh k
    exact mergeState_record_lookup st st.firstState hsh hcw hfw k
  refine ⟨?_, hor, ?_, ?_⟩
  · intro hsh
    simp [resetState, setStateVal, mergeState, hsh, elemsOf]
  · intro hsh hsub k
    rw [hor hsh k]
    cases hfk : getField st.firstState k with
    | none =>
      have hnm : k ∉ keysOf (fieldsOf st.firstState) := by
        intro hm
        exact lookup_ne_none_of_mem (fieldsOf st.firstState) k hm hfk
      have hcn : getField (getCurrentState st) k = none :=
        lookup_none_of_not_mem (fieldsOf (getCurrentState st)) k (fun hm => hnm (hsub hm))
      simp [hcn]
    | some v => simp
  · intro hsh hrw k
    have h2 : ∀ k, getField (resetState (resetState st)).current k
        = (getField st.firstState k).or (getField (resetState st).current k) := by
      intro k2
      exact mergeState_record_lookup (resetState st) (resetState st).firstState hsh hrw hfw k2
    rw [h2 k, hor hsh k]
    cases getField st.firstState k <;> simp

/-- Witness for C4 (amended): a record store whose write only touched an
existing field resets field-wise to `firstState`, and an array store resets
its elements to `firstState`'s. -/
theorem resetState_amended_witness :
    (∀ k, getField (resetState (setStateVal (mkStore (JsVal.obj 0 [("a", JsPrim.num 0)]) 1)
        (fun _ => JsVal.obj 50 [("a", JsPrim.num 3)]))).current k
      = getField (setStateVal (mkStore (JsVal.obj 0 [("a", JsPrim.num 0)]) 1)
        (fun _ => JsVal.obj 50 [("a", JsPrim.num 3)])).firstState k) ∧
    elemsOf (resetState (setStateVal (mkStore (JsVal.arr 0 [JsPrim.num 1]) 1)
        (fun _ => JsVal.arr 70 [JsPrim.num 9]))).current
      = elemsOf (setStateVal (mkStore (JsVal.arr 0 [JsPrim.num 1]) 1)
        (fun _ => JsVal.arr 70 [JsPrim.num 9])).firstState :=
  ⟨(resetState_amended _ (by decide) (by decide)).2.2.1 (by decide)
      (by decide),
   (resetState_amended _ (by decide) (by decide)).1 (by decide)⟩

/-! ## C5: the shape invariant -/

theorem setStateVal_shape (st : Store) (stateFn : JsVal → JsVal) :
    JsVal.isArrV (setStateVal st stateFn).current = st.isArray ∧
    JsVal.isObjV (setStateVal st stateFn).current = !st.isArray := by
  cases h : st.isArray <;>
    simp [setStateVal, mergeState, h, JsVal.isArrV, JsVal.isObjV]

theorem mkStore_shape (fs : JsVal) (r : Nat) :
    JsVal.isArrV (mkStore fs r).current = (mkStore fs r).isArray ∧
    JsVal.isObjV (mkStore fs r).current = !(mkStore fs r).isArray := by
  cases h : fs.isArrV with
  | false =>
    simp only [mkStore, h, copyAssign, Bool.false_eq_true, if_false]
    simp [JsVal.isArrV, JsVal.isObjV]
  | true =>
    simp only [mkStore, h, copyAssign, if_true]
    simp [JsVal.isArrV, JsVal.isObjV]

theorem runOps_isArray (initSt : JsVal) (ops : List WriteOp) :
    ∀ st : Store, (runOps initSt st ops).isArray = st.isArray := by
  induction ops with
  | nil => intro st; rfl
  | cons op ops ih =>
    intro st
    rw [show runOps initSt st (op :: ops) = runOps initSt (applyOp initSt st op) ops from rfl,
        ih (applyOp initSt st op)]
    cases op <;> rfl

theorem runOps_shape (initSt : JsVal) (ops : List WriteOp) :
    ∀ st : Store,
      (JsVal.isArrV st.current = st.isArray ∧ JsVal.isObjV st.current = !st.isArray) →
      JsVal.isArrV (runOps initSt st ops).current = (runOps initSt st ops).isArray ∧
      JsVal.isObjV (runOps initSt st ops).current = !(runOps initSt st ops).isArray := by
  induction ops with
  | nil => intro st h; exact h
  | cons op ops ih =>
    intro st _
    rw [show runOps initSt st (op :: ops) = runOps initSt (applyOp initSt st op) ops from rfl]
    apply ih
    have harr : (applyOp initSt st op).isArray = st.isArray := by cases op <;> rfl
    cases op with
    | setOp f => exact ⟨(setStateVal_shape st f).1, (setStateVal_shape st f).2⟩
    | resetOp => exact ⟨(setStateVal_shape st _).1, (setStateVal_shape st _).2⟩
    | restartOp => exact ⟨(setStateVal_shape st _).1, (setStateVal_shape st _).2⟩

/-- C5.  For every finite sequence of writes (`setState` / `resetState` /
`restartState`), the current state keeps the shape class of the first
state: record-shaped stores stay record-shaped, array-shaped stores stay
array-shaped. -/
theorem shape_invariant (fs initSt : JsVal) (r : Nat) (ops : List WriteOp) :
    (JsVal.isObjV fs = true →
      JsVal.isObjV (runOps initSt (mkStore fs r) ops).current = true) ∧
    (JsVal.isArrV fs = true →
      JsVal.isArrV (runOps initSt (mkStore fs r) ops).current = true) := by
  have hrun := runOps_shape initSt ops (mkStore fs r) (mkStore_shape fs r)
  have hflag : (runOps initSt (mkStore fs r) ops).isArray = fs.isArrV := by
    rw [runOps_isArray initSt ops (mkStore fs r)]; rfl
  constructor
  · intro h
    have hna : fs.isArrV = false := by cases fs <;> simp_all [JsVal.isObjV, JsVal.isArrV]
    rw [hrun.2, hflag, hna]; rfl
  · intro h
    rw [hrun.1, hflag, h]

/-- Witness for C5: a record store stays record-shaped and an array store
stays array-shaped across a `setState`, a `resetState` and a
`restartState`. -/
theorem shape_invariant_witness :
    JsVal.isObjV (runOps (JsVal.obj 9 []) (mkStore (JsVal.obj 0 [("a", JsPrim.num 0)]) 1)
      [WriteOp.setOp (fun _ => JsVal.obj 80 [("b", JsPrim.num 2)]), WriteOp.resetOp,
       WriteOp.restartOp]).current = true ∧
    JsVal.isArrV (runOps (JsVal.arr 9 []) (mkStore (JsVal.arr 0 [JsPrim.num 1]) 1)
      [WriteOp.setOp (fun _ => JsVal.arr 80 [JsPrim.num 2]), WriteOp.resetOp,
       WriteOp.restartOp]).current = true :=
  ⟨(shape_invariant (JsVal.obj 0 [("a", JsPrim.num 0)]) (JsVal.obj 9 []) 1
      [WriteOp.setOp (fun _ => JsVal.obj 80 [("b", JsPrim.num 2)]), WriteOp.resetOp,
       WriteOp.restartOp]).1 (by decide),
   (shape_invariant (JsVal.arr 0 [JsPrim.num 1]) (JsVal.arr 9 []) 1
      [WriteOp.setOp (fun _ => JsVal.arr 80 [JsPrim.num 2]), WriteOp.resetOp,
       WriteOp.restartOp]).2 (by decide)⟩

/-! ## C6: `getCurrentState` aliases the subject's value -/

/-- Counterexample to C6.  `getCurrentState()` is
`return this.state$.getValue()`: on a record store it returns the very
reference the subject holds — not a copy — so a caller mutating the
returned record mutates the container's internal state. -/
theorem getCurrentState_copy_cex :
    getCurrentState (mkStore (JsVal.obj 0 [("a", JsPrim.num 0)]) 1)
      = (mkStore (JsVal.obj 0 [("a", JsPrim.num 0)]) 1).current ∧
    JsVal.refOf (getCurrentState (mkStore (JsVal.obj 0 [("a", JsPrim.num 0)]) 1)) = some 1 ∧
    JsVal.refOf (mkStore (JsVal.obj 0 [("a", JsPrim.num 0)]) 1).current = some 1 ∧
    JsVal.isObjV (getCurrentState (mkStore (JsVal.obj 0 [("a", JsPrim.num 0)]) 1)) = true := by
  decide

/-- C6, amended.  `getCurrentState()` returns the subject's held value
itself (the same reference, no copy-on-read); the only copy the store makes
is at write time — in particular the subject's opening value is a fresh
allocation, never the caller-supplied `firstState` reference. -/
theorem getCurrentState_amended (st : Store) (fs : JsVal) (r : Nat)
    (h : JsVal.refOf fs ≠ some r) :
    getCurrentState st = st.current ∧
    JsVal.refOf (getCurrentState (mkStore fs r)) = some r ∧
    JsVal.refOf (getCurrentState (mkStore fs r)) ≠ JsVal.refOf fs := by
  have h2 : JsVal.refOf (getCurrentState (mkStore fs r)) = some r := by
    cases hb : fs.isArrV <;>
      simp [getCurrentState, mkStore, copyAssign, hb, JsVal.refOf]
  exact ⟨rfl, h2, by rw [h2]; exact fun he => h he.symm⟩

/-- Witness for C6 (amended) at a concrete record store. -/
theorem getCurrentState_amended_witness :
    getCurrentState (mkStore (JsVal.obj 0 [("a", JsPrim.num 0)]) 1)
      = (mkStore (JsVal.obj 0 [("a", JsPrim.num 0)]) 1).current ∧
    JsVal.refOf (getCurrentState (mkStore (JsVal.obj 0 [("a", JsPrim.num 0)]) 1)) = some 1 ∧
    JsVal.refOf (getCurrentState (mkStore (JsVal.obj 0 [("a", JsPrim.num 0)]) 1))
      ≠ JsVal.refOf (JsVal.obj 0 [("a", JsPrim.num 0)]) :=
  getCurrentState_amended _ (JsVal.obj 0 [("a", JsPrim.num 0)]) 1 (by decide)

/-! ## C7: exceptions on the write path -/

theorem devToolSend_ok_events (cfg : Config) (env : Env) (ns : Option JsVal)
    (a : Option (List Char)) (b : Bool) (evs : List Event)
    (h : devToolSend cfg env ns a = .ok (b, evs)) :
    ∃ lbl, evs = if cfg.devToolIsEnabled then [Event.devToolSendEv ns lbl] else [] := by
  cases hdt : cfg.devToolIsEnabled with
  | false =>
    rw [devToolSend, hdt] at h
    simp at h
    exact ⟨none, by simp [h.2]⟩
  | true =>
    rw [devToolSend, hdt] at h
    simp only [Bool.true_eq_false, if_false] at h
    cases hX : (if goodAction a then Except.ok a else introspect env.stack) with
    | error e => rw [hX] at h; cases h
    | ok lbl =>
      rw [hX] at h
      simp at h
      exact ⟨lbl, by simp [h.2.symm]⟩

/-- Counterexample to C7.  With the dev tool enabled and no explicit action
name, a missing `Error().stack` makes the unguarded chain
`stack.split('\n')[3].trim().split(' ')[1].split('.')[1]` throw a
`TypeError`, which surfaces to the caller of `setState` and aborts the
write before persistence and publication — there is no fallback label. -/
theorem setState_introspection_throw_cex :
    setStateM (Config.mk false true "s") (Env.mk none true)
        (mkStore (JsVal.obj 0 [("a", JsPrim.num 0)]) 1)
        (fun _ => JsVal.obj 9 [("a", JsPrim.num 2)]) none
      = Except.error JsError.typeError ∧
    okB (setStateM (Config.mk false true "s") (Env.mk none true)
        (mkStore (JsVal.obj 0 [("a", JsPrim.num 0)]) 1)
        (fun _ => JsVal.obj 9 [("a", JsPrim.num 2)]) none) = false :=
  ⟨rfl, rfl⟩

/-- C7, amended.  `setState` completes without an exception exactly when the
dev tool is disabled, or a truthy (non-empty) `actionName` is supplied, or
the call-stack introspection succeeds; otherwise the introspection's
`TypeError` propagates to the caller (the collaborator calls themselves
never throw in the model, matching their best-effort contract). -/
theorem setState_no_throw_iff (cfg : Config) (env : Env) (st : Store)
    (stateFn : JsVal → JsVal) (a : Option (List Char)) :
    okB (setStateM cfg env st stateFn a)
      = (!cfg.devToolIsEnabled || goodAction a || okB (introspect env.stack)) := by
  cases hdt : cfg.devToolIsEnabled with
  | false => simp [setStateM, devToolSend, hdt, okB]
  | true =>
    cases hga : goodAction a with
    | true => simp [setStateM, devToolSend, hdt, hga, okB]
    | false =>
      cases hin : introspect env.stack with
      | error e => simp [setStateM, devToolSend, hdt, hga, hin, okB]
      | ok lbl => simp [setStateM, devToolSend, hdt, hga, hin, okB]

/-! ## C8: the fixed order of side effects -/

/-- C8.  On every `setState` call that completes, the side effects happen
in this fixed order: the merged state is forwarded to the dev-tool bridge
(iff enabled), then persisted under the store name (iff enabled), and
finally published to the subject — the publication is always last, and the
persisted and published value is the new current state. -/
theorem setState_effect_order (cfg : Config) (env : Env) (st : Store)
    (stateFn : JsVal → JsVal) (actionName : Option (List Char))
    (st2 : Store) (evs : List Event)
    (h : setStateM cfg env st stateFn actionName = .ok (st2, evs)) :
    ∃ lbl,
      evs = (if cfg.devToolIsEnabled
              then [Event.devToolSendEv (some st2.current) lbl] else [])
        ++ (if cfg.localStorageIsEnabled
              then [Event.persistEv cfg.storeName st2.current] else [])
        ++ [Event.publishEv st2.current] := by
  rw [setStateM] at h
  cases hdev : devToolSend cfg env (some (setStateVal st stateFn).current) actionName with
  | error e => rw [hdev] at h; cases h
  | ok r =>
    rw [hdev] at h
    obtain ⟨b, evs1⟩ := r
    simp only [Except.ok.injEq, Prod.mk.injEq] at h
    obtain ⟨hst, hevs⟩ := h
    obtain ⟨lbl, hlbl⟩ := devToolSend_ok_events cfg env _ actionName b evs1 hdev
    exact ⟨lbl, by rw [← hevs, hlbl, ← hst]⟩

/-- Witness for C8: a concrete `setState` with both collaborators enabled
produces exactly [dev-tool send, persist, publish] of the merged state. -/
theorem setState_effect_order_witness :
    ∃ lbl,
      ([Event.devToolSendEv (some (JsVal.obj 2 [("a", JsPrim.num 2)])) (some ['i', 'n', 'c']),
        Event.persistEv "s" (JsVal.obj 2 [("a", JsPrim.num 2)]),
        Event.publishEv (JsVal.obj 2 [("a", JsPrim.num 2)])] : List Event)
        = (if (Config.mk true true "s").devToolIsEnabled
             then [Event.devToolSendEv (some (JsVal.obj 2 [("a", JsPrim.num 2)])) lbl] else [])
          ++ (if (Config.mk true true "s").localStorageIsEnabled
             then [Event.persistEv (Config.mk true true "s").storeName
                     (JsVal.obj 2 [("a", JsPrim.num 2)])] else [])
          ++ [Event.publishEv (JsVal.obj 2 [("a", JsPrim.num 2)])] := by
  have h : setStateM (Config.mk true true "s") (Env.mk none true)
      (mkStore (JsVal.obj 0 [("a", JsPrim.num 0)]) 1)
      (fun _ => JsVal.obj 9 [("a", JsPrim.num 2)]) (some ['i', 'n', 'c'])
    = Except.ok
        ({ isArray := false, firstState := JsVal.obj 0 [("a", JsPrim.num 0)],
           current := JsVal.obj 2 [("a", JsPrim.num 2)], nextRef := 3 },
         [Event.devToolSendEv (some (JsVal.obj 2 [("a", JsPrim.num 2)])) (some ['i', 'n', 'c']),
          Event.persistEv "s" (JsVal.obj 2 [("a", JsPrim.num 2)]),
          Event.publishEv (JsVal.obj 2 [("a", JsPrim.num 2)])]) := rfl
  exact setState_effect_order (Config.mk true true "s") (Env.mk none true)
    (mkStore (JsVal.obj 0 [("a", JsPrim.num 0)]) 1)
    (fun _ => JsVal.obj 9 [("a", JsPrim.num 2)]) (some ['i', 'n', 'c']) _ _ h

/-! ## C9: collaborator isolation -/

theorem setStateM_good (cfg : Config) (env : Env) (st : Store)
    (stateFn : JsVal → JsVal) (a : Option (List Char)) (h : goodAction a = true) :
    setStateM cfg env st stateFn a
      = .ok (setStateVal st stateFn,
          (if cfg.devToolIsEnabled
            then [Event.devToolSendEv (some (setStateVal st stateFn).current) a] else [])
          ++ (if cfg.localStorageIsEnabled
            then [Event.persistEv cfg.storeName (setStateVal st stateFn).current] else [])
          ++ [Event.publishEv (setStateVal st stateFn).current]) := by
  cases hdt : cfg.devToolIsEnabled <;>
    simp [setStateM, devToolSend, hdt, h]

theorem runCalls_good (cfg : Config) (env : Env) (calls : List SetCall) :
    ∀ st : Store, (∀ c ∈ calls, goodAction c.actionName = true) →
      ∃ evs, runCalls cfg env st calls = .ok (pureFold st calls, evs) ∧
        publishes evs = pubsOf st calls := by
  induction calls with
  | nil => intro st _; exact ⟨[], rfl, rfl⟩
  | cons c cs ih =>
    intro st h
    obtain ⟨evs2, h1, h2⟩ :=
      ih (setStateVal st c.stateFn) (fun c' hm => h c' (List.mem_cons_of_mem c hm))
    have hc : goodAction c.actionName = true := h c (List.mem_cons_self c cs)
    refine ⟨((if cfg.devToolIsEnabled
          then [Event.devToolSendEv (some (setStateVal st c.stateFn).current) c.actionName]
          else [])
        ++ (if cfg.localStorageIsEnabled
          then [Event.persistEv cfg.storeName (setStateVal st c.stateFn).current] else [])
        ++ [Event.publishEv (setStateVal st c.stateFn).current]) ++ evs2, ?_, ?_⟩
    · simp only [runCalls, setStateM_good cfg env st c.stateFn c.actionName hc, h1,
        pureFold]
    · rw [show pubsOf st (c :: cs)
          = (setStateVal st c.stateFn).current :: pubsOf (setStateVal st c.stateFn) cs from rfl,
        ← h2]
      cases hdt : cfg.devToolIsEnabled <;> cases hls : cfg.localStorageIsEnabled <;>
        simp [publishes, List.filterMap_append]

theorem runTrace_good (cfg : Config) (env : Env) (initSt : JsVal) (r : Nat)
    (calls : List SetCall) (h : ∀ c ∈ calls, goodAction c.actionName = true) :
    runTrace cfg env none initSt r calls
      = some ((mkStore initSt r).current :: pubsOf (mkStore initSt r) calls) := by
  have hfs : chooseFirstState cfg.localStorageIsEnabled none initSt = initSt := by
    cases cfg.localStorageIsEnabled <;> rfl
  have hcon : constructStore cfg env none initSt r
      = .ok (mkStore initSt r,
          if cfg.devToolIsEnabled
            then [Event.devToolSendEv (some initSt) (some initialStateLabel)] else []) := by
    cases hdt : cfg.devToolIsEnabled <;>
      simp [constructStore, hfs, devToolSend, hdt, goodAction, initialStateLabel,
        List.isEmpty]
  obtain ⟨evs, h1, h2⟩ := runCalls_good cfg env calls (mkStore initSt r) h
  rw [runTrace, hcon]
  simp only []
  rw [h1]
  simp [h2]

/-- Counterexample to C9.  Enabling the collaborators changes the subject's
state transitions, not only the side channels: with persistence enabled the
constructor loads the persisted snapshot (`{a: 5}`) as `firstState`, so the
subject opens on `{a: 5}` instead of `initialState()`'s `{a: 0}`. -/
theorem isolation_cex :
    runTrace (Config.mk true true "s") (Env.mk none true)
        (some (JsVal.obj 0 [("a", JsPrim.num 5)])) (JsVal.obj 9 [("a", JsPrim.num 0)]) 1 []
      = some [JsVal.obj 1 [("a", JsPrim.num 5)]] ∧
    runTrace (Config.mk false false "s") (Env.mk none true)
        (some (JsVal.obj 0 [("a", JsPrim.num 5)])) (JsVal.obj 9 [("a", JsPrim.num 0)]) 1 []
      = some [JsVal.obj 1 [("a", JsPrim.num 0)]] ∧
    (JsVal.obj 1 [("a", JsPrim.num 5)] : JsVal) ≠ JsVal.obj 1 [("a", JsPrim.num 0)] := by
  decide

/-- C9, amended.  Provided the persistence backend holds no prior snapshot
for the store name (`getItem` returns null) and every `setState` call
carries a truthy explicit action name (so the fragile introspection never
runs), the sequence of subject state transitions is the same under every
configuration and environment — enabling or disabling the collaborators
changes only the side-channel calls. -/
theorem isolation_amended (cfg1 cfg2 : Config) (env1 env2 : Env) (initSt : JsVal)
    (r : Nat) (calls : List SetCall)
    (h : ∀ c ∈ calls, goodAction c.actionName = true) :
    runTrace cfg1 env1 none initSt r calls = runTrace cfg2 env2 none initSt r calls := by
  rw [runTrace_good cfg1 env1 initSt r calls h, runTrace_good cfg2 env2 initSt r calls h]

/-- Witness for C9 (amended): one labelled write under (all collaborators
on, devtools extension present) and under (all off, extension absent)
produces identical subject transitions. -/
theorem isolation_amended_witness :
    runTrace (Config.mk true true "s") (Env.mk none true) none
        (JsVal.obj 9 [("a", JsPrim.num 0)]) 1
        [SetCall.mk (fun _ => JsVal.obj 70 [("a", JsPrim.num 4)]) (some ['i', 'n', 'c'])]
      = runTrace (Config.mk false false "s") (Env.mk (some ['x']) false) none
        (JsVal.obj 9 [("a", JsPrim.num 0)]) 1
        [SetCall.mk (fun _ => JsVal.obj 70 [("a", JsPrim.num 4)]) (some ['i', 'n', 'c'])] :=
  isolation_amended (Config.mk true true "s") (Config.mk false false "s")
    (Env.mk none true) (Env.mk (some ['x']) false)
    (JsVal.obj 9 [("a", JsPrim.num 0)]) 1
    [SetCall.mk (fun _ => JsVal.obj 70 [("a", JsPrim.num 4)]) (some ['i', 'n', 'c'])]
    (by intro c hm; rw [List.mem_singleton] at hm; rw [hm]; decide)

/-! ## C10: a null `storeConfig()` behaves as an empty config -/

/-- C10.  A concrete store that does not override `storeConfig()` inherits
the base class's `return null`; `null || \x7b\x7d` replaces it by the empty
config before the spread merge, so resolution behaves exactly as with an
empty per-instance config: a non-boolean `enableLocalStorage` /
`enableDevTool` resolves to `false`, and a non-string `storeName` resolves
to the concrete class's constructor name. -/
theorem storeConfig_null_default (g : RawConfig) (ctorName : String) :
    resolveConfig g storeConfig ctorName = resolveConfig g (some emptyRawConfig) ctorName ∧
    (isBoolOpt g.enableLocalStorage = false →
      (resolveConfig g storeConfig ctorName).localStorageIsEnabled = false) ∧
    (isBoolOpt g.enableDevTool = false →
      (resolveConfig g storeConfig ctorName).devToolIsEnabled = false) ∧
    (isStrOpt g.storeName = false →
      (resolveConfig g storeConfig ctorName).storeName = ctorName) := by
  refine ⟨rfl, ?_, ?_, ?_⟩
  · intro h
    cases hg : g.enableLocalStorage with
    | none => simp [resolveConfig, storeConfig, mergeConfig, emptyRawConfig, hg, coerceBool]
    | some c =>
      cases c <;>
        simp_all [resolveConfig, storeConfig, mergeConfig, emptyRawConfig, hg,
          coerceBool, isBoolOpt]
  · intro h
    cases hg : g.enableDevTool with
    | none => simp [resolveConfig, storeConfig, mergeConfig, emptyRawConfig, hg, coerceBool]
    | some c =>
      cases c <;>
        simp_all [resolveConfig, storeConfig, mergeConfig, emptyRawConfig, hg,
          coerceBool, isBoolOpt]
  · intro h
    cases hg : g.storeName with
    | none => simp [resolveConfig, storeConfig, mergeConfig, emptyRawConfig, hg, coerceName]
    | some c =>
      cases c <;>
        simp_all [resolveConfig, storeConfig, mergeConfig, emptyRawConfig, hg,
          coerceName, isStrOpt]

/-- Witness for C10: a global config whose flags hold non-booleans (a string
and a number-like value) and whose `storeName` holds a boolean resolves to
both flags `false` and the constructor's name. -/
theorem storeConfig_null_default_witness :
    (resolveConfig
        (RawConfig.mk (some (CVal.str "yes")) (some CVal.other) (some (CVal.bool true)))
        storeConfig "MyStore").localStorageIsEnabled = false ∧
    (resolveConfig
        (RawConfig.mk (some (CVal.str "yes")) (some CVal.other) (some (CVal.bool true)))
        storeConfig "MyStore").devToolIsEnabled = false ∧
    (resolveConfig
        (RawConfig.mk (some (CVal.str "yes")) (some CVal.other) (some (CVal.bool true)))
        storeConfig "MyStore").storeName = "MyStore" :=
  ⟨(storeConfig_null_default
      (RawConfig.mk (some (CVal.str "yes")) (some CVal.other) (some (CVal.bool true)))
      "MyStore").2.1 (by decide),
   (storeConfig_null_default
      (RawConfig.mk (some (CVal.str "yes")) (some CVal.other) (some (CVal.bool true)))
      "MyStore").2.2.1 (by decide),
   (storeConfig_null_default
      (RawConfig.mk (some (CVal.str "yes")) (some CVal.other) (some (CVal.bool true)))
      "MyStore").2.2.2 (by decide)⟩
